import Mathlib

/-!
Verification of the vertical-datum transformation core
(`depth_trans_ver.py`): surface interpolation with nearest-neighbour
fallback, the depth / ellipsoidal-bed-height transform, the range
filter, the bulk file worker and the fixed-width output writer.

Scalars are modelled by `FP`: either NaN or an exact rational, with
NaN-propagating arithmetic and NaN-false comparisons, mirroring IEEE
float behaviour on the operations the program uses.  The scipy
interpolants (`LinearNDInterpolator`, `NearestNDInterpolator`) are
external to the repository; they are modelled as an abstract
environment of per-surface evaluation functions, plus a concrete
nearest-neighbour model taken from the spec where a claim depends on
the fallback's behaviour.
-/

namespace VerticalDatum

/-- Model of a floating-point scalar: NaN, or an exact rational value. -/
inductive FP where
  | nan : FP
  | num : ℚ → FP
deriving DecidableEq, Repr

/-- NaN test (model of `np.isnan`). -/
def FP.isNaN : FP → Bool
  | FP.nan => true
  | FP.num _ => false

/-- NaN-propagating addition. -/
def FP.add : FP → FP → FP
  | FP.num a, FP.num b => FP.num (a + b)
  | _, _ => FP.nan

/-- NaN-propagating subtraction. -/
def FP.sub : FP → FP → FP
  | FP.num a, FP.num b => FP.num (a - b)
  | _, _ => FP.nan

/-- NaN-propagating negation. -/
def FP.neg : FP → FP
  | FP.nan => FP.nan
  | FP.num a => FP.num (-a)

/-- `x >= c` with IEEE semantics: false when `x` is NaN. -/
def FP.geB : FP → ℚ → Bool
  | FP.nan, _ => false
  | FP.num a, c => decide (c ≤ a)

/-- `x <= c` with IEEE semantics: false when `x` is NaN. -/
def FP.leB : FP → ℚ → Bool
  | FP.nan, _ => false
  | FP.num a, c => decide (a ≤ c)

/-- Underlying rational of a numeric scalar (0 for NaN; only applied to
values that passed the range check, which excludes NaN). -/
def FP.toQ : FP → ℚ
  | FP.nan => 0
  | FP.num a => a

/-- Operating envelope, west bound (`LON_MIN` in the source). -/
def LON_MIN : ℚ := 118

/-- Operating envelope, east bound (`LON_MAX` in the source). -/
def LON_MAX : ℚ := 125

/-- Operating envelope, south bound (`LAT_MIN` in the source). -/
def LAT_MIN : ℚ := 21

/-- Operating envelope, north bound (`LAT_MAX` in the source). -/
def LAT_MAX : ℚ := 27

/-- The per-point mask of `check_range`:
`(lon >= LON_MIN) & (lon <= LON_MAX) & (lat >= LAT_MIN) & (lat <= LAT_MAX)`.
False when a coordinate is NaN, as in numpy. -/
def inRange (lon lat : FP) : Bool :=
  lon.geB LON_MIN && lon.leB LON_MAX && lat.geB LAT_MIN && lat.leB LAT_MAX

/-- A parsed input row: longitude, latitude, value. -/
abbrev Row := FP × FP × FP

/-- Indices where the mask is true (model of `np.where(mask)[0]`). -/
def idxTrue (m : List Bool) : List ℕ :=
  (List.range m.length).filter fun i => m.getD i false

/-- Indices where the mask is false (model of `np.where(~mask)[0]`). -/
def idxFalse (m : List Bool) : List ℕ :=
  (List.range m.length).filter fun i => !(m.getD i false)

/-- The boolean mask computed inside `check_range`. -/
def rangeMask (rows : List Row) : List Bool :=
  rows.map fun r => inRange r.1 r.2.1

/-- Model of `check_range`: the in-envelope rows kept in order (numpy
fancy-indexing with the increasing `np.where(mask)[0]` indices is the
order-preserving filter), together with the out-of-envelope index list. -/
def check_range (rows : List Row) : List Row × List ℕ :=
  (rows.filter (fun r => inRange r.1 r.2.1), idxFalse (rangeMask rows))

/-- One surface's interpolation backend: the evaluation functions of the
linear interpolant (NaN outside the triangulated hull or when degenerate)
and of the nearest-neighbour interpolant.  These stand for the external
scipy objects built by `get_linear_interp` / `get_nearest_interp`. -/
structure Interp where
  lin : ℚ → ℚ → FP
  nn : ℚ → ℚ → FP

/-- Model of `interp_surface_with_fallback`: surface index 7 (Ellipsoid)
short-circuits to the constant 0 without consulting the environment;
otherwise evaluate the linear interpolant and replace NaN entries by the
nearest-neighbour value (`np.where(np.isnan(z), z_nn, z)`). -/
def interp_surface_with_fallback (env : ℕ → Interp) (idx : ℕ)
    (pts : List (ℚ × ℚ)) : List FP :=
  if idx = 7 then pts.map (fun _ => FP.num 0)
  else pts.map (fun p =>
    let z := (env idx).lin p.1 p.2
    if z.isNaN then (env idx).nn p.1 p.2 else z)

/-- Model of `transform_values`: interpolate both surfaces at the query
points, then apply the value-kind formula; an unknown kind raises
`ValueError("Unknown input_value_type")`, modelled as `Except.error`. -/
def transform_values (env : ℕ → Interp) (iIdx oIdx : ℕ)
    (pts : List (ℚ × ℚ)) (values : List FP) (kind : String) :
    Except String (List FP × List FP × List FP) :=
  let hIn := interp_surface_with_fallback env iIdx pts
  let hOut := interp_surface_with_fallback env oIdx pts
  if kind = "DEPTH" then
    Except.ok (List.zipWith FP.add values (List.zipWith FP.sub hOut hIn), hIn, hOut)
  else if kind = "ELLI_BED" then
    Except.ok (List.zipWith FP.sub hOut values, hIn, hOut)
  else Except.error "Unknown input_value_type"

/-- Squared planar distance from a control point to a query coordinate. -/
def dist2 (c : ℚ × ℚ × ℚ) (x y : ℚ) : ℚ :=
  (c.1 - x) ^ 2 + (c.2.1 - y) ^ 2

/-- Modelled from the spec: the nearest-control-point lookup backing
`NearestNDInterpolator` (external scipy code, not in the repository).
Returns the height of the closest control point, ties broken towards the
earlier point in the deterministic point order; NaN on an empty set. -/
def nearestVal (cps : List (ℚ × ℚ × ℚ)) (x y : ℚ) : FP :=
  match cps with
  | [] => FP.nan
  | c :: rest =>
    FP.num (rest.foldl
      (fun acc p => if dist2 p x y < dist2 acc x y then p else acc) c).2.2

/-- Model of one input line after whitespace splitting and float
parsing: each token is `some v` when `float(tok)` succeeds with value
`v`, `none` when it raises `ValueError`. -/
abbrev Line := List (Option FP)

/-- The row-parsing step of the bulk reader: a line is kept iff it has
at least three tokens and the first three parse as floats; otherwise it
is skipped (`continue`). -/
def parseRow : Line → Option Row
  | some a :: some b :: some c :: _ => some (a, b, c)
  | _ => none

/-- The mask back-fill `new_full = full(n, nan); new_full[mask] = new_in`:
positions with a true mask take the next transformed value in order,
positions with a false mask keep NaN. -/
def scatterMask : List Bool → List FP → List FP
  | [], _ => []
  | true :: ms, v :: vs => v :: scatterMask ms vs
  | true :: ms, [] => FP.nan :: scatterMask ms []
  | false :: ms, vs => FP.nan :: scatterMask ms vs

/-- Outcome of one bulk transform: the emitted `(success, message)` pair
of the `finished` signal, and the rows handed to `write_llvn` when a
file is written. -/
structure RunResult where
  success : Bool
  message : String
  written : Option (List (FP × FP × FP × FP))
deriving DecidableEq, Repr

/-- The status message built at the end of a successful run. -/
def okMessage (nOut : ℕ) : String :=
  if nOut = 1 then "OK!" ++ "  (There is 1 point outside the range)"
  else if 1 < nOut then
    "OK!" ++ "  (There are " ++ toString nOut ++ " points outside the range)"
  else "OK!"

/-- The body of `FileTransformWorker.run` inside its `try`: parse and
keep the well-formed rows, fail on an empty result, range-filter,
transform the in-envelope subset, back-fill NaN for the rest, and write
the four-column rows.  Exceptions travel on the `Except` channel. -/
def worker_body (env : ℕ → Interp) (iIdx oIdx : ℕ) (kind : String)
    (lines : List Line) : Except String RunResult :=
  let rows := lines.filterMap parseRow
  if rows.length = 0 then
    Except.ok ⟨false, "Input file is empty or invalid.", none⟩
  else
    (if 0 < (check_range rows).1.length then
      (transform_values env iIdx oIdx
          ((check_range rows).1.map fun r => (r.1.toQ, r.2.1.toQ))
          ((check_range rows).1.map fun r => r.2.2) kind).map
        (fun t => scatterMask (rangeMask rows) t.1)
    else Except.ok (List.replicate rows.length FP.nan)).map
      (fun newFull =>
        ⟨true, okMessage (check_range rows).2.length,
         some (List.zipWith (fun r nv => (r.1, r.2.1, r.2.2, nv)) rows newFull)⟩)

/-- Model of `FileTransformWorker.run`: the `try/except` boundary turns
any exception `e` into the pair `(False, f"Error: {e}")` with no file
written. -/
def worker_run (env : ℕ → Interp) (iIdx oIdx : ℕ) (kind : String)
    (lines : List Line) : RunResult :=
  match worker_body env iIdx oIdx kind lines with
  | Except.ok r => r
  | Except.error e => ⟨false, "Error: " ++ e, none⟩

/-- Left-pad a string with spaces to a minimum width (Python right-justified
fixed-width formatting). -/
def padLeft (w : ℕ) (s : String) : String :=
  String.mk (List.replicate (w - s.length) ' ') ++ s

/-- Round a rational to the nearest integer, ties to even
(the rounding used by Python fixed-point float formatting). -/
def roundHalfEven (q : ℚ) : ℤ :=
  if q - (⌊q⌋ : ℚ) < 1 / 2 then ⌊q⌋
  else if 1 / 2 < q - (⌊q⌋ : ℚ) then ⌊q⌋ + 1
  else if ⌊q⌋ % 2 = 0 then ⌊q⌋ else ⌊q⌋ + 1

/-- Exactly `p` decimal digits of `m` (most significant first, leading
zeros kept): the fractional part of a fixed-point rendering. -/
def fracDigits (p m : ℕ) : String :=
  String.mk ((List.range p).map fun i =>
    Char.ofNat (48 + m / 10 ^ (p - 1 - i) % 10))

/-- Fixed-point rendering of a finite value: round to `p` decimals
(half-even), render sign, integer part, a point and exactly `p`
fractional digits, then right-justify to width `w`. -/
def formatNum (w p : ℕ) (q : ℚ) : String :=
  padLeft w
    ((if roundHalfEven (q * (10 : ℚ) ^ p) < 0 then "-" else "") ++
      Nat.repr ((roundHalfEven (q * (10 : ℚ) ^ p)).natAbs / 10 ^ p) ++ "." ++
      fracDigits p ((roundHalfEven (q * (10 : ℚ) ^ p)).natAbs % 10 ^ p))

/-- Model of the Python format `f"{x:w.pf}"` on the model scalars:
fixed-point rendering for a finite value; NaN renders as the text `nan`
right-justified to width `w`. -/
def formatFixed (w p : ℕ) (x : FP) : String :=
  match x with
  | FP.nan => padLeft w "nan"
  | FP.num q => formatNum w p q

/-- One value column of `write_llvn`:
`f"{v:8.3f}" if np.isfinite(v) else "      NaN"` (the NaN literal is
six spaces followed by `NaN`, nine characters). -/
def valueField (v : FP) : String :=
  if v.isNaN then "      NaN" else formatFixed 8 3 v

/-- Model of `write_llvn`: one output line per row,
`f"{lo:11.7f} {la:10.7f} {s_v1} {s_v2}"` (the trailing newline of each
written line is left implicit in the line-list model). -/
def write_llvn (rows : List (FP × FP × FP × FP)) : List String :=
  rows.map fun r =>
    formatFixed 11 7 r.1 ++ " " ++ formatFixed 10 7 r.2.1 ++ " " ++
      valueField r.2.2.1 ++ " " ++ valueField r.2.2.2

/-! ### Helper lemmas -/

theorem interp_length (env : ℕ → Interp) (idx : ℕ) (pts : List (ℚ × ℚ)) :
    (interp_surface_with_fallback env idx pts).length = pts.length := by
  unfold interp_surface_with_fallback
  split <;> simp

theorem getD_zipWith {α β γ : Type} (f : α → β → γ) (l1 : List α) (l2 : List β)
    (d1 : α) (d2 : β) (d3 : γ) (k : ℕ) (h1 : k < l1.length) (h2 : k < l2.length) :
    (List.zipWith f l1 l2).getD k d3 = f (l1.getD k d1) (l2.getD k d2) := by
  rw [List.getD_eq_getElem _ _ (by simp; omega), List.getD_eq_getElem _ _ h1,
    List.getD_eq_getElem _ _ h2]
  exact List.getElem_zipWith ..

theorem getD_map {α β : Type} (f : α → β) (l : List α) (d1 : α) (d2 : β) (k : ℕ)
    (h : k < l.length) : (l.map f).getD k d2 = f (l.getD k d1) := by
  rw [List.getD_eq_getElem _ _ (by simpa), List.getD_eq_getElem _ _ h]
  simp

theorem transform_values_depth_eq (env : ℕ → Interp) (iIdx oIdx : ℕ)
    (pts : List (ℚ × ℚ)) (values : List FP) :
    transform_values env iIdx oIdx pts values "DEPTH" =
      Except.ok (List.zipWith FP.add values
          (List.zipWith FP.sub (interp_surface_with_fallback env oIdx pts)
            (interp_surface_with_fallback env iIdx pts)),
        interp_surface_with_fallback env iIdx pts,
        interp_surface_with_fallback env oIdx pts) := rfl

theorem transform_values_elli_eq (env : ℕ → Interp) (iIdx oIdx : ℕ)
    (pts : List (ℚ × ℚ)) (values : List FP) :
    transform_values env iIdx oIdx pts values "ELLI_BED" =
      Except.ok (List.zipWith FP.sub (interp_surface_with_fallback env oIdx pts) values,
        interp_surface_with_fallback env iIdx pts,
        interp_surface_with_fallback env oIdx pts) := rfl

theorem transform_values_other (env : ℕ → Interp) (iIdx oIdx : ℕ)
    (pts : List (ℚ × ℚ)) (values : List FP) (kind : String)
    (h1 : kind ≠ "DEPTH") (h2 : kind ≠ "ELLI_BED") :
    transform_values env iIdx oIdx pts values kind =
      Except.error "Unknown input_value_type" := by
  simp [transform_values, h1, h2]

/-- A concrete interpolation environment used to instantiate the theorems:
surface 0 interpolates to the constant 5, every other surface to the
constant 1. -/
def envW : ℕ → Interp := fun i =>
  if i = 0 then { lin := fun _ _ => FP.num 5, nn := fun _ _ => FP.num 0 }
  else { lin := fun _ _ => FP.num 1, nn := fun _ _ => FP.num 1 }

/-! ### C1 -/

/-- C1: for every surface pair and equal-length point/value sequences, with
`hIn`/`hOut` the interpolated heights of the input and output surfaces at
the points, the kind `DEPTH` returns `value[i] + (hOut[i] - hIn[i])` at
every index, the kind `ELLI_BED` (ellipsoidal bed height) returns
`hOut[i] - value[i]` at every index, and any other value kind yields the
invalid-value-kind error. -/
theorem transform_values_formulas (env : ℕ → Interp) (iIdx oIdx : ℕ)
    (pts : List (ℚ × ℚ)) (values : List FP) (kind : String)
    (hlen : pts.length = values.length) :
    (∀ out, transform_values env iIdx oIdx pts values "DEPTH" = Except.ok out →
      out.2.1 = interp_surface_with_fallback env iIdx pts ∧
      out.2.2 = interp_surface_with_fallback env oIdx pts ∧
      out.1.length = values.length ∧
      ∀ k, k < values.length →
        out.1.getD k FP.nan =
          (values.getD k FP.nan).add
            ((out.2.2.getD k FP.nan).sub (out.2.1.getD k FP.nan))) ∧
    (∃ out, transform_values env iIdx oIdx pts values "DEPTH" = Except.ok out) ∧
    (∀ out, transform_values env iIdx oIdx pts values "ELLI_BED" = Except.ok out →
      out.2.1 = interp_surface_with_fallback env iIdx pts ∧
      out.2.2 = interp_surface_with_fallback env oIdx pts ∧
      out.1.length = values.length ∧
      ∀ k, k < values.length →
        out.1.getD k FP.nan =
          (out.2.2.getD k FP.nan).sub (values.getD k FP.nan)) ∧
    (∃ out, transform_values env iIdx oIdx pts values "ELLI_BED" = Except.ok out) ∧
    (kind ≠ "DEPTH" → kind ≠ "ELLI_BED" →
      transform_values env iIdx oIdx pts values kind =
        Except.error "Unknown input_value_type") := by
  have hiL := interp_length env iIdx pts
  have hoL := interp_length env oIdx pts
  refine ⟨?_, ⟨_, transform_values_depth_eq env iIdx oIdx pts values⟩, ?_,
    ⟨_, transform_values_elli_eq env iIdx oIdx pts values⟩,
    transform_values_other env iIdx oIdx pts values kind⟩
  · intro out hout
    rw [transform_values_depth_eq env iIdx oIdx pts values] at hout
    obtain rfl : _ = out := Except.ok.inj hout
    refine ⟨rfl, rfl, by simp [List.length_zipWith]; omega, ?_⟩
    intro k hk
    rw [getD_zipWith FP.add _ _ FP.nan FP.nan FP.nan k (by omega)
        (by simp [List.length_zipWith]; omega),
      getD_zipWith FP.sub _ _ FP.nan FP.nan FP.nan k (by omega) (by omega)]
  · intro out hout
    rw [transform_values_elli_eq env iIdx oIdx pts values] at hout
    obtain rfl : _ = out := Except.ok.inj hout
    refine ⟨rfl, rfl, by simp [List.length_zipWith]; omega, ?_⟩
    intro k hk
    rw [getD_zipWith FP.sub _ _ FP.nan FP.nan FP.nan k (by omega) (by omega)]

/-- Witness for C1 at a concrete input: an unrecognized value kind is
rejected with the invalid-value-kind error. -/
theorem transform_values_formulas_witness :
    transform_values envW 0 1 [((120 : ℚ), (24 : ℚ))] [FP.num 10] "FOO" =
      Except.error "Unknown input_value_type" :=
  (transform_values_formulas envW 0 1 [((120 : ℚ), (24 : ℚ))] [FP.num 10] "FOO"
    rfl).2.2.2.2 (by decide) (by decide)

/-! ### C4 -/

/-- C4: evaluating the Ellipsoid surface (index 7) returns exactly 0 for
every query point, for every interpolation environment — hence without
consulting the loader or any interpolant, and independently of any cache
state. -/
theorem interp_ellipsoid_zero (env : ℕ → Interp) (pts : List (ℚ × ℚ)) :
    interp_surface_with_fallback env 7 pts = pts.map fun _ => FP.num 0 := by
  unfold interp_surface_with_fallback
  simp

/-! ### C5 -/

/-- C5: for a non-synthetic surface backed by exactly one control point,
the primary linear method is undefined (NaN) at every query, so every
query falls back to the nearest-neighbour lookup, which returns the
single point's height everywhere; no error is raised. -/
theorem interp_single_point (env : ℕ → Interp) (idx : ℕ) (hidx : idx ≠ 7)
    (a b h : ℚ) (pts : List (ℚ × ℚ))
    (hlin : ∀ p ∈ pts, (env idx).lin p.1 p.2 = FP.nan)
    (hnn : (env idx).nn = nearestVal [(a, b, h)]) :
    interp_surface_with_fallback env idx pts = pts.map fun _ => FP.num h := by
  unfold interp_surface_with_fallback
  rw [if_neg hidx]
  refine List.map_congr_left ?_
  intro p hp
  rw [hlin p hp, hnn]
  rfl

/-- An environment whose surfaces all have the single control point
(120, 24, 5): the linear interpolant is degenerate (NaN everywhere) and
the nearest-neighbour lookup is over that one point. -/
def envC5 : ℕ → Interp := fun _ =>
  { lin := fun _ _ => FP.nan, nn := nearestVal [(120, 24, 5)] }

/-- Witness for C5 at a concrete input: two distinct query points both
receive the single control point's height 5. -/
theorem interp_single_point_witness :
    interp_surface_with_fallback envC5 0 [((119 : ℚ), (22 : ℚ)), ((125 : ℚ), (27 : ℚ))] =
      [FP.num 5, FP.num 5] := by
  rw [interp_single_point envC5 0 (by decide) 120 24 5
    [((119 : ℚ), (22 : ℚ)), ((125 : ℚ), (27 : ℚ))] (fun p _ => rfl) rfl]
  rfl

/-! ### C2 -/

theorem zipWith_add_sub_self (values hs : List FP)
    (hlen : hs.length = values.length)
    (hnum : ∀ z ∈ hs, z.isNaN = false) :
    List.zipWith FP.add values (List.zipWith FP.sub hs hs) = values := by
  induction values generalizing hs with
  | nil => simp
  | cons v vs ih =>
    cases hs with
    | nil => simp at hlen
    | cons z zs =>
      have hz := hnum z (by simp)
      cases z with
      | nan => simp [FP.isNaN] at hz
      | num q =>
        simp only [List.zipWith]
        have hv : FP.add v (FP.sub (FP.num q) (FP.num q)) = v := by
          cases v <;> simp [FP.add, FP.sub]
        rw [hv, ih zs (by simpa using hlen) (fun w hw => hnum w (by simp [hw]))]

/-- C2: a self-transform uses the same interpolated height list for
input and output; with those heights numeric (non-NaN), kind `DEPTH`
returns the value sequence exactly unchanged, while kind `ELLI_BED`
returns `hOut[i] - value[i]`, which is not the identity. -/
theorem transform_values_self (env : ℕ → Interp) (idx : ℕ)
    (pts : List (ℚ × ℚ)) (values : List FP)
    (hlen : pts.length = values.length)
    (hnum : ∀ z ∈ interp_surface_with_fallback env idx pts, z.isNaN = false) :
    transform_values env idx idx pts values "DEPTH" =
      Except.ok (values, interp_surface_with_fallback env idx pts,
        interp_surface_with_fallback env idx pts) ∧
    transform_values env idx idx pts values "ELLI_BED" =
      Except.ok
        (List.zipWith FP.sub (interp_surface_with_fallback env idx pts) values,
         interp_surface_with_fallback env idx pts,
         interp_surface_with_fallback env idx pts) := by
  refine ⟨?_, transform_values_elli_eq env idx idx pts values⟩
  rw [transform_values_depth_eq env idx idx pts values,
    zipWith_add_sub_self values (interp_surface_with_fallback env idx pts)
      (by rw [interp_length, hlen]) hnum]

/-- Witness for C2 at a concrete input: the self-transform of the DEPTH
value 10 on surface 0 returns 10 unchanged. -/
theorem transform_values_self_witness :
    transform_values envW 0 0 [((120 : ℚ), (24 : ℚ))] [FP.num 10] "DEPTH" =
      Except.ok ([FP.num 10],
        interp_surface_with_fallback envW 0 [((120 : ℚ), (24 : ℚ))],
        interp_surface_with_fallback envW 0 [((120 : ℚ), (24 : ℚ))]) :=
  (transform_values_self envW 0 [((120 : ℚ), (24 : ℚ))] [FP.num 10] rfl
    (by simp [interp_surface_with_fallback, envW, FP.isNaN])).1

/-! ### C3 (corrected) -/

/-- Environment for the C3 counterexample: surface 0's interpolants are
NaN everywhere (an empty control-point set), surface 1 interpolates to
the constant 1. -/
def envC3 : ℕ → Interp := fun i =>
  if i = 0 then { lin := fun _ _ => FP.nan, nn := fun _ _ => FP.nan }
  else { lin := fun _ _ => FP.num 1, nn := fun _ _ => FP.num 1 }

theorem FP.add_isNaN (a b : FP) (h : a.isNaN = true ∨ b.isNaN = true) :
    (FP.add a b).isNaN = true := by
  cases a <;> cases b <;> simp_all [FP.add, FP.isNaN]

theorem FP.sub_isNaN (a b : FP) (h : a.isNaN = true ∨ b.isNaN = true) :
    (FP.sub a b).isNaN = true := by
  cases a <;> cases b <;> simp_all [FP.sub, FP.isNaN]

/-- Counterexample to C3 as stated: with the input surface's height NaN
at the query point but the output surface's height numeric, the
`ELLI_BED` transform returns the numeric value `hOut - value = -4`, not
NaN — the input height does not enter the `ELLI_BED` formula. -/
theorem transform_values_nan_cex :
    transform_values envC3 0 1 [((120 : ℚ), (24 : ℚ))] [FP.num 5] "ELLI_BED" =
      Except.ok ([FP.num ((1 : ℚ) - 5)], [FP.nan], [FP.num 1]) ∧
    (FP.num ((1 : ℚ) - 5)).isNaN = false ∧ (FP.nan).isNaN = true :=
  ⟨rfl, rfl, rfl⟩

/-- C3 (amended): for kind `DEPTH`, `new_values[i]` is NaN whenever
`hIn[i]` or `hOut[i]` is NaN; for kind `ELLI_BED`, `new_values[i]` is
NaN whenever `hOut[i]` is NaN (`hIn` does not enter that formula); the
NaN is propagated, never replaced by a numeric value. -/
theorem transform_values_nan_propagation (env : ℕ → Interp) (iIdx oIdx : ℕ)
    (pts : List (ℚ × ℚ)) (values : List FP)
    (hlen : pts.length = values.length) :
    (∀ out, transform_values env iIdx oIdx pts values "DEPTH" = Except.ok out →
      ∀ k, k < values.length →
        ((out.2.1.getD k FP.nan).isNaN = true ∨
          (out.2.2.getD k FP.nan).isNaN = true) →
        (out.1.getD k FP.nan).isNaN = true) ∧
    (∀ out, transform_values env iIdx oIdx pts values "ELLI_BED" = Except.ok out →
      ∀ k, k < values.length →
        (out.2.2.getD k FP.nan).isNaN = true →
        (out.1.getD k FP.nan).isNaN = true) := by
  have hiL := interp_length env iIdx pts
  have hoL := interp_length env oIdx pts
  constructor
  · intro out hout k hk hnan
    rw [transform_values_depth_eq env iIdx oIdx pts values] at hout
    obtain rfl : _ = out := Except.ok.inj hout
    rw [getD_zipWith FP.add _ _ FP.nan FP.nan FP.nan k (by omega)
        (by simp [List.length_zipWith]; omega),
      getD_zipWith FP.sub _ _ FP.nan FP.nan FP.nan k (by omega) (by omega)]
    exact FP.add_isNaN _ _ (Or.inr (FP.sub_isNaN _ _ hnan.symm))
  · intro out hout k hk hnan
    rw [transform_values_elli_eq env iIdx oIdx pts values] at hout
    obtain rfl : _ = out := Except.ok.inj hout
    rw [getD_zipWith FP.sub _ _ FP.nan FP.nan FP.nan k (by omega) (by omega)]
    exact FP.sub_isNaN _ _ (Or.inl hnan)

/-- Witness for the amended C3 at a concrete input: a NaN input height
propagates through the DEPTH formula. -/
theorem transform_values_nan_propagation_witness :
    (([FP.nan] : List FP).getD 0 FP.nan).isNaN = true :=
  (transform_values_nan_propagation envC3 0 1 [((120 : ℚ), (24 : ℚ))] [FP.num 5]
    rfl).1 ([FP.nan], [FP.nan], [FP.num 1]) rfl 0 (by decide) (Or.inl rfl)

/-! ### C8 -/

theorem zipWith_sub_antisymm (ha hb : List FP) :
    List.zipWith FP.sub hb ha = (List.zipWith FP.sub ha hb).map FP.neg := by
  induction ha generalizing hb with
  | nil => cases hb <;> simp
  | cons a as ih =>
    cases hb with
    | nil => simp
    | cons b bs =>
      simp only [List.zipWith, List.map]
      refine congrArg₂ _ ?_ (ih bs)
      cases a <;> cases b <;> simp [FP.sub, FP.neg]

theorem zipWith_roundtrip (values ha hb : List FP)
    (hla : ha.length = values.length) (hlb : hb.length = values.length)
    (hna : ∀ z ∈ ha, z.isNaN = false) (hnb : ∀ z ∈ hb, z.isNaN = false) :
    List.zipWith FP.add
      (List.zipWith FP.add values (List.zipWith FP.sub hb ha))
      (List.zipWith FP.sub ha hb) = values := by
  induction values generalizing ha hb with
  | nil => simp
  | cons v vs ih =>
    cases ha with
    | nil => simp at hla
    | cons a as =>
      cases hb with
      | nil => simp at hlb
      | cons b bs =>
        have hza := hna a (by simp)
        have hzb := hnb b (by simp)
        cases a with
        | nan => simp [FP.isNaN] at hza
        | num qa =>
          cases b with
          | nan => simp [FP.isNaN] at hzb
          | num qb =>
            simp only [List.zipWith]
            have hv : FP.add (FP.add v (FP.sub (FP.num qb) (FP.num qa)))
                (FP.sub (FP.num qa) (FP.num qb)) = v := by
              cases v <;> simp [FP.add, FP.sub]
              ring
            rw [hv, ih as bs (by simpa using hla) (by simpa using hlb)
              (fun w hw => hna w (by simp [hw])) (fun w hw => hnb w (by simp [hw]))]

/-- C8: the height offset `hOut - hIn` of the transform A→B is the exact
pointwise negation of the offset of B→A, and — with both surfaces'
interpolated heights numeric — transforming a DEPTH value sequence A→B
and then B→A returns the original sequence exactly (the model's scalars
are exact, so associativity holds). -/
theorem transform_values_roundtrip (env : ℕ → Interp) (aIdx bIdx : ℕ)
    (pts : List (ℚ × ℚ)) (values : List FP)
    (hlen : pts.length = values.length)
    (hna : ∀ z ∈ interp_surface_with_fallback env aIdx pts, z.isNaN = false)
    (hnb : ∀ z ∈ interp_surface_with_fallback env bIdx pts, z.isNaN = false) :
    (List.zipWith FP.sub (interp_surface_with_fallback env bIdx pts)
        (interp_surface_with_fallback env aIdx pts) =
      (List.zipWith FP.sub (interp_surface_with_fallback env aIdx pts)
        (interp_surface_with_fallback env bIdx pts)).map FP.neg) ∧
    (∀ new1 hIn hOut,
      transform_values env aIdx bIdx pts values "DEPTH" =
        Except.ok (new1, hIn, hOut) →
      transform_values env bIdx aIdx pts new1 "DEPTH" =
        Except.ok (values, hOut, hIn)) := by
  refine ⟨zipWith_sub_antisymm _ _, ?_⟩
  intro new1 hIn hOut hout
  rw [transform_values_depth_eq env aIdx bIdx pts values] at hout
  simp only [Except.ok.injEq, Prod.mk.injEq] at hout
  obtain ⟨h1, h2, h3⟩ := hout
  subst h1 h2 h3
  rw [transform_values_depth_eq env bIdx aIdx pts _,
    zipWith_roundtrip values (interp_surface_with_fallback env aIdx pts)
      (interp_surface_with_fallback env bIdx pts)
      (by rw [interp_length, hlen]) (by rw [interp_length, hlen]) hna hnb]

/-- Witness for C8 at a concrete input: a DEPTH value 10 goes to 6 under
surface 0 → surface 1 (offset 1 − 5 = −4) and back to 10 under
surface 1 → surface 0. -/
theorem transform_values_roundtrip_witness :
    transform_values envW 1 0 [((120 : ℚ), (24 : ℚ))]
        [FP.num ((10 : ℚ) + ((1 : ℚ) - 5))] "DEPTH" =
      Except.ok ([FP.num 10], [FP.num 1], [FP.num 5]) :=
  (transform_values_roundtrip envW 0 1 [((120 : ℚ), (24 : ℚ))] [FP.num 10] rfl
      (by simp [interp_surface_with_fallback, envW, FP.isNaN])
      (by simp [interp_surface_with_fallback, envW, FP.isNaN])).2
    [FP.num ((10 : ℚ) + ((1 : ℚ) - 5))] [FP.num 5] [FP.num 1] rfl

/-! ### Worker helper lemmas -/

theorem scatterMask_length (m : List Bool) (vs : List FP) :
    (scatterMask m vs).length = m.length := by
  induction m generalizing vs with
  | nil => rfl
  | cons b ms ih =>
    cases b with
    | true => cases vs <;> simp [scatterMask, ih]
    | false => simp [scatterMask, ih]

theorem scatterMask_getD_false (m : List Bool) (vs : List FP) (k : ℕ)
    (hk : k < m.length) (hm : m.getD k false = false) :
    (scatterMask m vs).getD k FP.nan = FP.nan := by
  induction m generalizing vs k with
  | nil => simp at hk
  | cons b ms ih =>
    cases k with
    | zero =>
      cases b with
      | true => simp [List.getD] at hm
      | false => simp [scatterMask]
    | succ k =>
      have hm2 : ms.getD k false = false := by simpa [List.getD] using hm
      have hk2 : k < ms.length := by simpa using hk
      cases b with
      | true =>
        cases vs with
        | nil => simpa [scatterMask] using ih [] k hk2 hm2
        | cons v vs2 => simpa [scatterMask] using ih vs2 k hk2 hm2
      | false => simpa [scatterMask] using ih vs k hk2 hm2

theorem transform_values_ok_valid (env : ℕ → Interp) (iIdx oIdx : ℕ)
    (pts : List (ℚ × ℚ)) (values : List FP) (kind : String)
    (hkind : kind = "DEPTH" ∨ kind = "ELLI_BED")
    (hlen : pts.length = values.length) :
    ∃ t, transform_values env iIdx oIdx pts values kind = Except.ok t ∧
      t.1.length = values.length := by
  rcases hkind with rfl | rfl
  · exact ⟨_, transform_values_depth_eq env iIdx oIdx pts values,
      by simp [List.length_zipWith, interp_length]; omega⟩
  · exact ⟨_, transform_values_elli_eq env iIdx oIdx pts values,
      by simp [List.length_zipWith, interp_length]; omega⟩

theorem worker_run_ok (env : ℕ → Interp) (iIdx oIdx : ℕ) (kind : String)
    (lines : List Line)
    (hkind : kind = "DEPTH" ∨ kind = "ELLI_BED")
    (hne : lines.filterMap parseRow ≠ []) :
    ∃ newFull, newFull.length = (lines.filterMap parseRow).length ∧
      (∀ k, k < (lines.filterMap parseRow).length →
        (rangeMask (lines.filterMap parseRow)).getD k false = false →
        newFull.getD k FP.nan = FP.nan) ∧
      worker_run env iIdx oIdx kind lines =
        ⟨true, okMessage (check_range (lines.filterMap parseRow)).2.length,
         some (List.zipWith (fun r nv => (r.1, r.2.1, r.2.2, nv))
           (lines.filterMap parseRow) newFull)⟩ := by
  have hlen0 : ¬ (lines.filterMap parseRow).length = 0 := by
    simpa [List.length_eq_zero] using hne
  by_cases hin : 0 < (check_range (lines.filterMap parseRow)).1.length
  · obtain ⟨t, ht, htl⟩ := transform_values_ok_valid env iIdx oIdx
      ((check_range (lines.filterMap parseRow)).1.map fun r => (r.1.toQ, r.2.1.toQ))
      ((check_range (lines.filterMap parseRow)).1.map fun r => r.2.2) kind hkind
      (by simp)
    refine ⟨scatterMask (rangeMask (lines.filterMap parseRow)) t.1, ?_, ?_, ?_⟩
    · rw [scatterMask_length]; simp [rangeMask]
    · intro k hk hm
      exact scatterMask_getD_false _ _ k (by simpa [rangeMask] using hk) hm
    · unfold worker_run worker_body
      rw [if_neg hlen0, if_pos hin, ht]
      rfl
  · refine ⟨List.replicate (lines.filterMap parseRow).length FP.nan, by simp, ?_, ?_⟩
    · intro k hk _
      rw [List.getD_eq_getElem _ _ (by simpa using hk)]
      simp
    · unfold worker_run worker_body
      rw [if_neg hlen0, if_neg hin]
      rfl

theorem worker_run_parse_only (env : ℕ → Interp) (iIdx oIdx : ℕ) (kind : String)
    (l1 l2 : List Line) (h : l1.filterMap parseRow = l2.filterMap parseRow) :
    worker_run env iIdx oIdx kind l1 = worker_run env iIdx oIdx kind l2 := by
  unfold worker_run worker_body
  rw [h]

theorem filterMap_filter_isSome {α β : Type} (f : α → Option β) (l : List α) :
    (l.filter fun x => (f x).isSome).filterMap f = l.filterMap f := by
  induction l with
  | nil => rfl
  | cons a l ih =>
    cases hf : f a with
    | none => simp [List.filter_cons, List.filterMap_cons, hf, ih]
    | some b => simp [List.filter_cons, List.filterMap_cons, hf, ih]

theorem worker_run_empty (env : ℕ → Interp) (iIdx oIdx : ℕ) (kind : String)
    (lines : List Line) (h : lines.filterMap parseRow = []) :
    worker_run env iIdx oIdx kind lines =
      ⟨false, "Input file is empty or invalid.", none⟩ := by
  unfold worker_run worker_body
  rw [h]
  rfl

theorem worker_run_invalid_kind (env : ℕ → Interp) (iIdx oIdx : ℕ) (kind : String)
    (lines : List Line) (h1 : kind ≠ "DEPTH") (h2 : kind ≠ "ELLI_BED")
    (hne : lines.filterMap parseRow ≠ [])
    (hin : 0 < (check_range (lines.filterMap parseRow)).1.length) :
    worker_run env iIdx oIdx kind lines =
      ⟨false, "Error: " ++ "Unknown input_value_type", none⟩ := by
  unfold worker_run worker_body
  rw [if_neg (by simpa [List.length_eq_zero] using hne), if_pos hin,
    transform_values_other env iIdx oIdx _ _ kind h1 h2]
  rfl

theorem mem_idxTrue (m : List Bool) (i : ℕ) :
    i ∈ idxTrue m ↔ i < m.length ∧ m.getD i false = true := by
  simp [idxTrue, List.mem_filter, List.mem_range]

theorem mem_idxFalse (m : List Bool) (i : ℕ) :
    i ∈ idxFalse m ↔ i < m.length ∧ m.getD i false = false := by
  simp [idxFalse, List.mem_filter, List.mem_range]

theorem inRange_nan_lon (lat : FP) : inRange FP.nan lat = false := rfl

theorem inRange_nan_lat (lon : FP) : inRange lon FP.nan = false := by
  cases lon <;> simp [inRange, FP.geB, FP.leB]

theorem worker_run_all_outside (env : ℕ → Interp) (iIdx oIdx : ℕ) (kind : String)
    (lines : List Line)
    (hne : lines.filterMap parseRow ≠ [])
    (hin : ¬ 0 < (check_range (lines.filterMap parseRow)).1.length) :
    worker_run env iIdx oIdx kind lines =
      ⟨true, okMessage (check_range (lines.filterMap parseRow)).2.length,
       some (List.zipWith (fun r nv => (r.1, r.2.1, r.2.2, nv))
         (lines.filterMap parseRow)
         (List.replicate (lines.filterMap parseRow).length FP.nan))⟩ := by
  unfold worker_run worker_body
  rw [if_neg (by simpa [List.length_eq_zero] using hne), if_neg hin]
  rfl

/-! ### C6 -/

/-- C6: with at least one parseable input row and a recognized value kind,
the bulk transform succeeds and writes exactly one output row per
parseable input row, in input order; each written row keeps the input
row's longitude, latitude and original value; a row whose point falls
outside the envelope carries NaN in the transformed column; and when
exactly one point is outside, the reported message is
"OK!  (There is 1 point outside the range)". -/
theorem worker_run_bulk_rows (env : ℕ → Interp) (iIdx oIdx : ℕ) (kind : String)
    (lines : List Line)
    (hkind : kind = "DEPTH" ∨ kind = "ELLI_BED")
    (hne : lines.filterMap parseRow ≠ []) :
    (worker_run env iIdx oIdx kind lines).success = true ∧
    (∃ out, (worker_run env iIdx oIdx kind lines).written = some out ∧
      out.length = (lines.filterMap parseRow).length ∧
      (∀ k, k < (lines.filterMap parseRow).length →
        (out.getD k (FP.nan, FP.nan, FP.nan, FP.nan)).1 =
          ((lines.filterMap parseRow).getD k (FP.nan, FP.nan, FP.nan)).1 ∧
        (out.getD k (FP.nan, FP.nan, FP.nan, FP.nan)).2.1 =
          ((lines.filterMap parseRow).getD k (FP.nan, FP.nan, FP.nan)).2.1 ∧
        (out.getD k (FP.nan, FP.nan, FP.nan, FP.nan)).2.2.1 =
          ((lines.filterMap parseRow).getD k (FP.nan, FP.nan, FP.nan)).2.2 ∧
        (inRange ((lines.filterMap parseRow).getD k (FP.nan, FP.nan, FP.nan)).1
            ((lines.filterMap parseRow).getD k (FP.nan, FP.nan, FP.nan)).2.1 = false →
          (out.getD k (FP.nan, FP.nan, FP.nan, FP.nan)).2.2.2 = FP.nan))) ∧
    ((check_range (lines.filterMap parseRow)).2.length = 1 →
      (worker_run env iIdx oIdx kind lines).message =
        "OK!  (There is 1 point outside the range)") := by
  obtain ⟨newFull, hlen, hnanAt, hrun⟩ := worker_run_ok env iIdx oIdx kind lines hkind hne
  rw [hrun]
  refine ⟨rfl, ⟨_, rfl, ?_, ?_⟩, ?_⟩
  · simp [List.length_zipWith, hlen]
  · intro k hk
    have hk2 : k < newFull.length := by rw [hlen]; exact hk
    rw [getD_zipWith (fun r nv => (r.1, r.2.1, r.2.2, nv)) _ _
      (FP.nan, FP.nan, FP.nan) FP.nan (FP.nan, FP.nan, FP.nan, FP.nan) k hk hk2]
    refine ⟨rfl, rfl, rfl, ?_⟩
    intro hout
    have hmask : (rangeMask (lines.filterMap parseRow)).getD k false = false := by
      simp only [rangeMask]
      rw [getD_map (fun r => inRange r.1 r.2.1) _ (FP.nan, FP.nan, FP.nan) false k hk]
      exact hout
    exact hnanAt k hk hmask
  · intro h1
    show okMessage (check_range (lines.filterMap parseRow)).2.length = _
    rw [h1]
    rfl

/-- Input lines for the bulk-transform witness: one parseable row inside
the envelope, one parseable row outside it (longitude 130). -/
def linesW6 : List Line :=
  [[some (FP.num 120), some (FP.num 24), some (FP.num 5)],
   [some (FP.num 130), some (FP.num 24), some (FP.num 5)]]

/-- Witness for C6 at a concrete input: one of two rows is outside the
envelope; the run succeeds and reports the 1-point-outside message. -/
theorem worker_run_bulk_rows_witness :
    (worker_run envW 0 1 "DEPTH" linesW6).success = true ∧
    (worker_run envW 0 1 "DEPTH" linesW6).message =
      "OK!  (There is 1 point outside the range)" := by
  have hne : linesW6.filterMap parseRow ≠ [] := by
    show ([(FP.num 120, FP.num 24, FP.num 5),
      (FP.num 130, FP.num 24, FP.num 5)] : List Row) ≠ []
    simp
  have hmask : rangeMask [(FP.num 120, FP.num 24, FP.num 5),
      (FP.num 130, FP.num 24, FP.num 5)] = [true, false] := by
    norm_num [rangeMask, inRange, FP.geB, FP.leB, LON_MIN, LON_MAX, LAT_MIN, LAT_MAX]
  have h1 : (check_range (linesW6.filterMap parseRow)).2.length = 1 := by
    show (idxFalse (rangeMask [(FP.num 120, FP.num 24, FP.num 5),
      (FP.num 130, FP.num 24, FP.num 5)])).length = 1
    rw [hmask]
    decide
  exact ⟨(worker_run_bulk_rows envW 0 1 "DEPTH" linesW6 (Or.inl rfl) hne).1,
    (worker_run_bulk_rows envW 0 1 "DEPTH" linesW6 (Or.inl rfl) hne).2.2 h1⟩

/-! ### C9 -/

/-- C9: malformed input lines are dropped without any other effect (the
run is a function of the parseable rows alone); when no usable row
remains, the run returns the structured failure (success flag false with
message "Input file is empty or invalid.") instead of an exception; and
every run yields a (success, message) pair in which a failure carries
either that message or an "Error: "-prefixed message — failures never
propagate as an unhandled fault. -/
theorem worker_run_error_handling (env : ℕ → Interp) (iIdx oIdx : ℕ)
    (kind : String) (lines : List Line) :
    worker_run env iIdx oIdx kind lines =
      worker_run env iIdx oIdx kind (lines.filter fun l => (parseRow l).isSome) ∧
    (lines.filterMap parseRow = [] →
      worker_run env iIdx oIdx kind lines =
        ⟨false, "Input file is empty or invalid.", none⟩) ∧
    ((worker_run env iIdx oIdx kind lines).success = true ∨
      (worker_run env iIdx oIdx kind lines).message =
        "Input file is empty or invalid." ∨
      ∃ e, (worker_run env iIdx oIdx kind lines).message = "Error: " ++ e) := by
  refine ⟨worker_run_parse_only env iIdx oIdx kind _ _
      (filterMap_filter_isSome parseRow lines).symm,
    worker_run_empty env iIdx oIdx kind lines, ?_⟩
  by_cases h0 : lines.filterMap parseRow = []
  · rw [worker_run_empty env iIdx oIdx kind lines h0]
    exact Or.inr (Or.inl rfl)
  · by_cases hkind : kind = "DEPTH" ∨ kind = "ELLI_BED"
    · obtain ⟨nf, _, _, hrun⟩ := worker_run_ok env iIdx oIdx kind lines hkind h0
      rw [hrun]
      exact Or.inl rfl
    · push_neg at hkind
      by_cases hin : 0 < (check_range (lines.filterMap parseRow)).1.length
      · rw [worker_run_invalid_kind env iIdx oIdx kind lines hkind.1 hkind.2 h0 hin]
        exact Or.inr (Or.inr ⟨_, rfl⟩)
      · rw [worker_run_all_outside env iIdx oIdx kind lines h0 hin]
        exact Or.inl rfl

/-- Witness for C9 at a concrete input: a single malformed line leaves no
usable row, and the run reports the structured empty-file failure. -/
theorem worker_run_error_handling_witness :
    worker_run envW 0 1 "DEPTH"
        [[none, some (FP.num 24), some (FP.num 5)]] =
      ⟨false, "Input file is empty or invalid.", none⟩ :=
  (worker_run_error_handling envW 0 1 "DEPTH"
    [[none, some (FP.num 24), some (FP.num 5)]]).2.1 rfl

/-! ### C10 -/

/-- C10: the envelope mask partitions the row indices — every index below
the row count lies in exactly one of the inside (`np.where(mask)[0]`) and
outside (`np.where(~mask)[0]`) index sets, and every member of either set
is a valid index; a NaN longitude or latitude puts the index in the
outside set (NaN comparisons are false); and the bulk transform writes
NaN in the transformed column at every outside index instead of
computing a value there. -/
theorem check_range_partition (env : ℕ → Interp) (iIdx oIdx : ℕ) (kind : String)
    (lines : List Line)
    (hkind : kind = "DEPTH" ∨ kind = "ELLI_BED")
    (hne : lines.filterMap parseRow ≠ []) :
    (∀ rows : List Row, ∀ i, i < rows.length →
      (i ∈ idxTrue (rangeMask rows) ↔ ¬ i ∈ idxFalse (rangeMask rows))) ∧
    (∀ rows : List Row, ∀ i,
      i ∈ idxTrue (rangeMask rows) ∨ i ∈ idxFalse (rangeMask rows) →
      i < rows.length) ∧
    (∀ rows : List Row, ∀ i, i < rows.length →
      ((rows.getD i (FP.nan, FP.nan, FP.nan)).1 = FP.nan ∨
        (rows.getD i (FP.nan, FP.nan, FP.nan)).2.1 = FP.nan) →
      i ∈ (check_range rows).2) ∧
    (∃ out, (worker_run env iIdx oIdx kind lines).written = some out ∧
      ∀ i, i ∈ (check_range (lines.filterMap parseRow)).2 →
        (out.getD i (FP.nan, FP.nan, FP.nan, FP.nan)).2.2.2 = FP.nan) := by
  refine ⟨?_, ?_, ?_, ?_⟩
  · intro rows i hi
    have hlm : (rangeMask rows).length = rows.length := by simp [rangeMask]
    rw [mem_idxTrue, mem_idxFalse]
    cases hb : (rangeMask rows).getD i false <;> simp [hb, hlm, hi]
  · intro rows i h
    have hlm : (rangeMask rows).length = rows.length := by simp [rangeMask]
    rcases h with h | h
    · rw [mem_idxTrue] at h
      omega
    · rw [mem_idxFalse] at h
      omega
  · intro rows i hi hnan
    show i ∈ idxFalse (rangeMask rows)
    rw [mem_idxFalse]
    refine ⟨by simpa [rangeMask] using hi, ?_⟩
    simp only [rangeMask]
    rw [getD_map (fun r => inRange r.1 r.2.1) _ (FP.nan, FP.nan, FP.nan) false i hi]
    rcases hnan with h | h
    · rw [h]
      exact inRange_nan_lon _
    · rw [h]
      exact inRange_nan_lat _
  · obtain ⟨nf, hlen, hnanAt, hrun⟩ := worker_run_ok env iIdx oIdx kind lines hkind hne
    rw [hrun]
    refine ⟨_, rfl, ?_⟩
    intro i hmem
    have hm := (mem_idxFalse (rangeMask (lines.filterMap parseRow)) i).mp hmem
    have hi : i < (lines.filterMap parseRow).length := by
      have := hm.1
      simpa [rangeMask] using this
    rw [getD_zipWith (fun r nv => (r.1, r.2.1, r.2.2, nv)) _ _
      (FP.nan, FP.nan, FP.nan) FP.nan (FP.nan, FP.nan, FP.nan, FP.nan) i hi
      (by rw [hlen]; exact hi)]
    exact hnanAt i hi hm.2

/-- Witness for C10 at a concrete input: a row with NaN longitude is
assigned to the outside index set. -/
theorem check_range_partition_witness :
    1 ∈ (check_range [(FP.num 120, FP.num 24, FP.num 5),
      (FP.nan, FP.num 24, FP.num 5)]).2 :=
  (check_range_partition envW 0 1 "DEPTH" linesW6 (Or.inl rfl)
      (by show ([(FP.num 120, FP.num 24, FP.num 5),
        (FP.num 130, FP.num 24, FP.num 5)] : List Row) ≠ []; simp)).2.2.1
    [(FP.num 120, FP.num 24, FP.num 5), (FP.nan, FP.num 24, FP.num 5)] 1
    (by decide) (Or.inl rfl)

/-! ### C7 (corrected) -/

theorem fracDigits_length (p m : ℕ) : (fracDigits p m).length = p := by
  simp [fracDigits]

theorem padLeft_length (w : ℕ) (s : String) : w ≤ (padLeft w s).length := by
  simp [padLeft, String.length_append]
  omega

/-- Counterexample to C7 as stated: `write_llvn` renders a NaN value
column as the literal "      NaN" — the text NaN right-aligned in a
NINE-character field — while a finite value column such as 1.000 is
eight characters wide; shown on a concrete row. -/
theorem write_llvn_nan_width_cex :
    valueField FP.nan = "      NaN" ∧
    (valueField FP.nan).length = 9 ∧
    (valueField (FP.num 1)).length = 8 ∧
    write_llvn [(FP.num 120, FP.num 24, FP.nan, FP.num 1)] =
      ["120.0000000 24.0000000       NaN    1.000"] := by
  have hr120 : roundHalfEven ((120 : ℚ) * (10 : ℚ) ^ 7) = 1200000000 := by
    norm_num [roundHalfEven]
  have hr24 : roundHalfEven ((24 : ℚ) * (10 : ℚ) ^ 7) = 240000000 := by
    norm_num [roundHalfEven]
  have hr1 : roundHalfEven ((1 : ℚ) * (10 : ℚ) ^ 3) = 1000 := by
    norm_num [roundHalfEven]
  have h120 : formatNum 11 7 (120 : ℚ) = "120.0000000" := by
    simp only [formatNum, hr120]
    decide
  have h24 : formatNum 10 7 (24 : ℚ) = "24.0000000" := by
    simp only [formatNum, hr24]
    decide
  have h1 : formatNum 8 3 (1 : ℚ) = "   1.000" := by
    simp only [formatNum, hr1]
    decide
  refine ⟨rfl, rfl, ?_, ?_⟩
  · show (formatNum 8 3 (1 : ℚ)).length = 8
    rw [h1]
    rfl
  · show [formatFixed 11 7 (FP.num 120) ++ " " ++ formatFixed 10 7 (FP.num 24) ++
      " " ++ valueField FP.nan ++ " " ++ valueField (FP.num 1)] = _
    show [formatNum 11 7 (120 : ℚ) ++ " " ++ formatNum 10 7 (24 : ℚ) ++
      " " ++ "      NaN" ++ " " ++ formatNum 8 3 (1 : ℚ)] = _
    rw [h120, h24, h1]
    rfl

/-- C7 (amended): each output line of `write_llvn` is the four fields —
longitude, latitude, original value, transformed value — joined by
single spaces; the longitude is fixed-point with 7 decimals
right-justified to width 11, the latitude fixed-point with 7 decimals
to width 10, and each finite value column fixed-point with exactly 3
fractional digits right-justified to at least 8 characters; a NaN value
column is rendered as the literal text "NaN" right-aligned in a
nine-character field instead of a numeric string. -/
theorem write_llvn_format (rows : List (FP × FP × FP × FP)) (k : ℕ)
    (hk : k < rows.length) :
    ((write_llvn rows).getD k "" =
      formatFixed 11 7 (rows.getD k (FP.nan, FP.nan, FP.nan, FP.nan)).1 ++ " " ++
        formatFixed 10 7 (rows.getD k (FP.nan, FP.nan, FP.nan, FP.nan)).2.1 ++ " " ++
        valueField (rows.getD k (FP.nan, FP.nan, FP.nan, FP.nan)).2.2.1 ++ " " ++
        valueField (rows.getD k (FP.nan, FP.nan, FP.nan, FP.nan)).2.2.2) ∧
    (∀ v : FP, v.isNaN = true → valueField v = padLeft 9 "NaN") ∧
    (∀ q : ℚ, valueField (FP.num q) = formatNum 8 3 q) ∧
    (∀ w p : ℕ, ∀ q : ℚ,
      w ≤ (formatNum w p q).length ∧
      (formatNum w p q =
        padLeft w
          (((if roundHalfEven (q * (10 : ℚ) ^ p) < 0 then "-" else "") ++
              Nat.repr ((roundHalfEven (q * (10 : ℚ) ^ p)).natAbs / 10 ^ p)) ++ "." ++
            fracDigits p ((roundHalfEven (q * (10 : ℚ) ^ p)).natAbs % 10 ^ p))) ∧
      (fracDigits p ((roundHalfEven (q * (10 : ℚ) ^ p)).natAbs % 10 ^ p)).length = p) := by
  refine ⟨?_, ?_, ?_, ?_⟩
  · simp only [write_llvn]
    rw [getD_map _ _ (FP.nan, FP.nan, FP.nan, FP.nan) "" k hk]
  · intro v hv
    cases v with
    | nan => rfl
    | num q => simp [FP.isNaN] at hv
  · intro q
    rfl
  · intro w p q
    refine ⟨?_, rfl, fracDigits_length p _⟩
    exact padLeft_length w _

/-- Witness for the amended C7 at a concrete input: the single output
line decomposes into the four space-separated formatted fields. -/
theorem write_llvn_format_witness :
    (write_llvn [(FP.num 120, FP.num 24, FP.num 1, FP.nan)]).getD 0 "" =
      formatFixed 11 7 (FP.num 120) ++ " " ++ formatFixed 10 7 (FP.num 24) ++
        " " ++ valueField (FP.num 1) ++ " " ++ valueField FP.nan := by
  have h := (write_llvn_format [(FP.num 120, FP.num 24, FP.num 1, FP.nan)] 0
    (by decide)).1
  simpa using h

end VerticalDatum
